import Mathlib

/-!
Verification of the soloQueue multi-agent orchestration engine.

This file gives a shallow embedding, in Lean 4, of the parts of the
soloQueue code base that the checked properties speak about:

* the message / frame / control-signal data model
  (`soloqueue/orchestration/frame.py`, `signals.py`);
* the orchestrator's delegation permission check, its DELEGATE /
  DELEGATE_PARALLEL / RETURN signal handlers and its parallel-delegate
  runner (`soloqueue/orchestration/orchestrator.py`);
* the agent runner's tool-call interpretation stage
  (`soloqueue/orchestration/runner.py`) together with the delegation and
  memory tools (`soloqueue/orchestration/tools.py`);
* the context builder (`soloqueue/core/context/builder.py`);
* the workspace path sandbox (`soloqueue/core/workspace.py`);
* the artifact store's content-addressed blob layout
  (`soloqueue/core/memory/artifact_store.py`);
* the session-id builder and parser
  (`soloqueue/core/memory/session_manager.py`).

Conventions.  Python strings are Lean `String`s except in the session-id
parser, where character-level index arithmetic makes `List Char` the
convenient representation.  Machine-external effects (the SHA-256 hash,
OS symlink resolution, the embedding model's similarity scores, the two
execution attempts of a parallel sub-agent) enter as explicit function
parameters; each embedded operation is executable once those parameters
are instantiated.  Filesystem paths are lists of path components.
-/

/-- A tool-call record carried by an assistant message: `name`, an
argument dictionary (modelled as an association list) and the call id. -/
structure ToolCall where
  name : String
  args : List (String × String)
  id : String
deriving DecidableEq

/-- The message kinds held in a frame's memory: system prompt, user
(human) message, assistant message (content, tool calls, optional
reasoning blob), and tool-result message.  A `ToolMessage`'s
`tool_call_id` is kept optional because the orchestrator constructs some
of them directly from optional signal fields. -/
inductive Msg where
  | system (content : String)
  | human (content : String)
  | assistant (content : String) (tool_calls : List ToolCall) (reasoning : Option String)
  | tool (tool_call_id : Option String) (content : String) (name : String)
deriving DecidableEq

/-- Agent configuration: the fields of `AgentSchema`
(`core/loaders/schema.py`) that delegation and permission checking read. -/
structure AgentCfg where
  name : String
  group : Option String
  is_leader : Bool
deriving DecidableEq

/-- `AgentSchema.node_id`: `{group}__{name}` when `group` is truthy
(Python: `None` and the empty string are both falsy), else `name`. -/
def AgentCfg.node_id (c : AgentCfg) : String :=
  match c.group with
  | some g => if g = "" then c.name else g ++ "__" ++ c.name
  | none => c.name

/-- `TaskFrame` (`orchestration/frame.py`), restricted to the fields the
modelled operations touch; `state` and `dynamic_config` are never read
or written by them. -/
structure TaskFrame where
  agent_name : String
  memory : List Msg
  instruction : String
  parent_tool_call_id : Option String
  result : Option String
deriving DecidableEq

/-- `SignalType` (`orchestration/signals.py`). -/
inductive SignalType where
  | CONTINUE
  | DELEGATE
  | RETURN
  | ERROR
  | USE_SKILL
  | DELEGATE_PARALLEL
deriving DecidableEq

/-- One parallel delegation target (`orchestration/signals.py`). -/
structure ParallelDelegateTarget where
  target_agent : String
  instruction : String
  tool_call_id : String
deriving DecidableEq

/-- `ControlSignal` (`orchestration/signals.py`): a tag plus optional
payload fields, all defaulting to `None`. -/
structure ControlSignal where
  type : SignalType
  target_agent : Option String := none
  instruction : Option String := none
  tool_call_id : Option String := none
  skill_name : Option String := none
  skill_args : Option String := none
  result : Option String := none
  error_msg : Option String := none
  parallel_delegates : Option (List ParallelDelegateTarget) := none
deriving DecidableEq

/-- Python's rendering of an `Optional[str]` inside an f-string:
`None` prints as the four characters `None`. -/
def pyOptStr : Option String → String
  | some s => s
  | none => "None"

/-- `Orchestrator._check_permission` (orchestrator.py lines 500-504):
false when either config is missing; true when the groups are equal;
otherwise true exactly when both sides are leaders. -/
def check_permission (source target : Option AgentCfg) : Bool :=
  match source, target with
  | none, _ => false
  | _, none => false
  | some s, some t =>
    if s.group = t.group then true
    else s.is_leader && t.is_leader

/-- `Orchestrator._handle_delegation_error` (orchestrator.py lines
506-513): append `Error: <reason>` to the frame, as a tool message when
the signal carries a tool-call id and as a human message otherwise. -/
def handle_delegation_error (frame : TaskFrame) (signal : ControlSignal) (reason : String) :
    TaskFrame :=
  let tool_name :=
    if signal.type = SignalType.DELEGATE_PARALLEL then "delegate_parallel" else "delegate_to"
  match signal.tool_call_id with
  | some tcid =>
    { frame with memory := frame.memory ++ [Msg.tool (some tcid) ("Error: " ++ reason) tool_name] }
  | none =>
    { frame with memory := frame.memory ++ [Msg.human ("Error: " ++ reason)] }

/-- The DELEGATE branch of `Orchestrator.run` (orchestrator.py lines
189-234) acting on the frame stack (top of stack = last element).
`target_config` is the outcome of `_resolve_agent` and `source_config`
the registry lookup of the delegating frame's agent.  An unresolved
target or a failed permission check leaves the stack height unchanged
and rewrites only the top frame via `handle_delegation_error`; a passed
check pushes a child frame seeded with the instruction as a human
message.  When the permission check fails with `source_config = None`,
the reason f-string dereferences `source_config.node_id` and raises;
this is surfaced as `.error`. -/
def delegate_case (stack : List TaskFrame) (source_config target_config : Option AgentCfg)
    (signal : ControlSignal) : Except String (List TaskFrame) :=
  match stack.getLast? with
  | none => .ok stack
  | some frame =>
    match target_config with
    | none =>
      .ok (stack.dropLast ++
        [handle_delegation_error frame signal
          ("Agent '" ++ pyOptStr signal.target_agent ++ "' not found.")])
    | some target =>
      if check_permission source_config (some target) then
        .ok (stack ++
          [{ agent_name := target.node_id,
             memory := [Msg.human ((signal.instruction).getD "")],
             instruction := (signal.instruction).getD "",
             parent_tool_call_id := signal.tool_call_id,
             result := none }])
      else
        match source_config with
        | none => .error "AttributeError: NoneType has no attribute node_id"
        | some s =>
          .ok (stack.dropLast ++
            [handle_delegation_error frame signal
              ("Permission Denied: " ++ s.node_id ++ " -> " ++ target.node_id)])

/-- The RETURN branch of `Orchestrator.run` (orchestrator.py lines
379-435) acting on the frame stack (top = last element).  Pops the
completed frame; with a parent present, appends the result to the parent
as a tool message when `parent_tool_call_id` is set (name `skill`,
content `Result:\n<result>`) and as a human message otherwise, and the
loop continues (`none`); with no parent, the loop returns
`signal.result or "No result"`. -/
def return_case (stack : List TaskFrame) (result : Option String) :
    List TaskFrame × Option String :=
  match stack.reverse with
  | [] => (stack, none)
  | completed :: restRev =>
    match restRev with
    | [] =>
      ([], some (match result with
        | some r => if r = "" then "No result" else r
        | none => "No result"))
    | parent :: olderRev =>
      let msg : Msg :=
        match completed.parent_tool_call_id with
        | some tcid => Msg.tool (some tcid) ("Result:\n" ++ pyOptStr result) "skill"
        | none => Msg.human ("Result:\n" ++ pyOptStr result)
      (({ parent with memory := parent.memory ++ [msg] } :: olderRev).reverse, none)

/-- The history-selection loop of `ContextBuilder.build_context`
(builder.py lines 88-97), applied to the reversed history (the Python
loop iterates `reversed(history)`): take each message while the running
budget stays non-negative, prepending it (Python `insert(0, msg)`), and
stop at the first message that does not fit, dropping all older ones. -/
def select_newest_first (cnt : Msg → Nat) : Int → List Msg → List Msg
  | _, [] => []
  | rem, m :: ms =>
    if rem - (cnt m : Int) < 0 then []
    else select_newest_first cnt (rem - (cnt m : Int)) ms ++ [m]

/-- `ContextBuilder.build_context` (builder.py lines 48-101).  The token
counter is the abstract per-message count `cnt`; the float
`safety_margin` is the exact rational `safety_num / safety_den`
(defaults 19/20 = 0.95) so that `int(model_limit * safety_margin)` is
the floor `model_limit * safety_num / safety_den`; `budget` and the
running `remaining_budget` are Python ints, hence `Int` here.  If the
system prompt alone overruns the budget the history is dropped
entirely; otherwise the newest-first sliding window is appended after
the system message. -/
def build_context (cnt : Msg → Nat) (safety_num safety_den response_buffer : Nat)
    (system_prompt : String) (history : List Msg) (model_limit : Nat) : List Msg :=
  let safe_limit : Nat := model_limit * safety_num / safety_den
  let budget : Int := (safe_limit : Int) - (response_buffer : Int)
  let sys_msg := Msg.system system_prompt
  let remaining_budget : Int := budget - (cnt sys_msg : Int)
  if remaining_budget < 0 then [sys_msg]
  else sys_msg :: select_newest_first cnt remaining_budget history.reverse

/-- `WorkspaceManager.resolve_path` (workspace.py lines 35-74).  Paths
are lists of components; `rslv` is the OS's `Path.resolve()` (symlink
following plus `..`/`.` normalisation) applied to an absolute path, and
`root` is the already-resolved workspace root.  For an absolute input
both branches of the Python code resolve the input itself; a relative
input is joined to the root first.  The final `target.relative_to(root)`
check is the component-prefix test; failure raises `PermissionDenied`,
modelled as `none`. -/
def resolve_path (rslv : List String → List String) (root : List String)
    (p : List String) (is_absolute : Bool) : Option (List String) :=
  let target := if is_absolute then rslv p else rslv (root ++ p)
  if root <+: target then some target else none

/-- One metadata row of the `artifacts` table
(`ArtifactStore.save_artifact`, artifact_store.py lines 160-182). -/
structure ArtifactRow where
  content_hash : String
  group_id : String
  title : String
  tags : List String
  author : String
  created_at : String
  path : String
  size : Nat
  mime : String
deriving DecidableEq

/-- Artifact store state: the set of blob files (as pairs of the
`YYYY/MM/DD` date directory produced by `strftime` and the hash
filename; the two hash-prefix directories are functions of the filename)
and the metadata rows in insertion order. -/
structure ArtifactState where
  blobs : List (String × String)
  rows : List ArtifactRow
deriving DecidableEq

/-- The relative blob path `ArtifactStore._get_blob_path` builds
(artifact_store.py lines 108-118): `.soloqueue/artifacts/blobs/` plus
the date directory, the first two byte-pairs of the hash, and the hash. -/
def blob_rel_path (dateDir h : String) : String :=
  ".soloqueue/artifacts/blobs/" ++ dateDir ++ "/" ++ h.take 2 ++ "/" ++ (h.drop 2).take 2
    ++ "/" ++ h

/-- `ArtifactStore.save_artifact` (artifact_store.py lines 120-185).
`sha256` is the (hex) SHA-256 function, an abstract parameter; `dateDir`
is `timestamp.strftime("%Y/%m/%d")` for the wall-clock timestamp of the
call.  The blob is written only when `(dateDir, hash)` does not already
exist (`blob_path.exists()`); a metadata row is always inserted. -/
def save_artifact (sha256 : String → String) (st : ArtifactState)
    (content title author group_id : String) (tags : List String) (artifact_type : String)
    (dateDir : String) : ArtifactState :=
  let content_hash := sha256 content
  let blob := (dateDir, content_hash)
  let blobs' := if blob ∈ st.blobs then st.blobs else st.blobs ++ [blob]
  let row : ArtifactRow :=
    { content_hash := content_hash
      group_id := group_id
      title := title
      tags := tags
      author := author
      created_at := dateDir
      path := blob_rel_path dateDir content_hash
      size := content.length
      mime := artifact_type }
  { blobs := blobs', rows := st.rows ++ [row] }

/-- Number of blob files under the blobs directory whose filename is
`f`, regardless of the date directory they sit in. -/
def blobCountWithFilename (st : ArtifactState) (f : String) : Nat :=
  (st.blobs.filter (fun b => b.2 = f)).length

/-- The arguments of one `save_artifact` call other than the content
(used to quantify over arbitrary titles, tags, groups). -/
structure SaveArgs where
  title : String
  author : String
  group_id : String
  tags : List String
  artifact_type : String
deriving DecidableEq

/-- The store after a sequence of `save_artifact` calls for contents
`cs`, all carrying timestamps of the same calendar date `dateDir`,
starting from an empty store. -/
def save_sequence (sha256 : String → String) (dateDir : String)
    (calls : List (String × SaveArgs)) : ArtifactState :=
  calls.foldl
    (fun st call =>
      save_artifact sha256 st call.1 call.2.title call.2.author call.2.group_id
        call.2.tags call.2.artifact_type dateDir)
    ⟨[], []⟩

/-- The resolution-and-permission loop of the DELEGATE_PARALLEL branch
(orchestrator.py lines 243-254): targets are resolved and checked in
declaration order; the first failure reports its reason (the `for` loop
breaks and the `else` block is skipped); when the source config is
`None` a failing check's reason f-string raises.  On success it returns
the `(target_config, pd_target)` pairs in declaration order. -/
def resolve_and_check (resolve : String → Option AgentCfg) (source_config : Option AgentCfg) :
    List ParallelDelegateTarget → Except String (List (AgentCfg × ParallelDelegateTarget))
  | [] => .ok []
  | pd :: rest =>
    match resolve pd.target_agent with
    | none => .error ("Agent '" ++ pd.target_agent ++ "' not found.")
    | some tc =>
      if check_permission source_config (some tc) then
        match resolve_and_check resolve source_config rest with
        | .ok tail => .ok ((tc, pd) :: tail)
        | .error e => .error e
      else
        match source_config with
        | none => .error "AttributeError: NoneType has no attribute node_id"
        | some s => .error ("Permission Denied: " ++ s.node_id ++ " -> " ++ tc.node_id)

/-- `_run_one` inside `Orchestrator._run_parallel_delegates`
(orchestrator.py lines 529-547): the first attempt's result if it
succeeds, else the retry's result, else the substitute error string.
`try1` and `try2` are the outcomes of the two executions of the
sub-agent loop, abstract parameters since they involve model I/O. -/
def run_one (try1 try2 : AgentCfg → ParallelDelegateTarget → Except String String)
    (tc : AgentCfg) (pd : ParallelDelegateTarget) : String :=
  match try1 tc pd with
  | .ok r => r
  | .error _ =>
    match try2 tc pd with
    | .ok r => r
    | .error e2 => "Error: Agent " ++ tc.node_id ++ " failed after retry: " ++ e2

/-- `Orchestrator._run_parallel_delegates` (orchestrator.py lines
515-554): `asyncio.gather` returns the per-target results in task
submission order — the order of `resolved_targets` — independent of the
order in which the sub-agent threads complete, so the completion
interleaving does not appear in the result. -/
def run_parallel_delegates (try1 try2 : AgentCfg → ParallelDelegateTarget → Except String String)
    (resolved : List (AgentCfg × ParallelDelegateTarget)) :
    List (AgentCfg × ParallelDelegateTarget × String) :=
  resolved.map (fun p => (p.1, p.2, run_one try1 try2 p.1 p.2))

/-- The aggregation loop of the DELEGATE_PARALLEL branch
(orchestrator.py lines 295-302): one tool message per result, appended
to the delegating frame's memory in result order, labelled
`[<node id>] Result:\n<result>` with tool name `delegate_parallel` and
the signal's tool-call id. -/
def inject_parallel_results (mem : List Msg) (tcid : Option String)
    (results : List (AgentCfg × ParallelDelegateTarget × String)) : List Msg :=
  results.foldl
    (fun m r => m ++ [Msg.tool tcid ("[" ++ r.1.node_id ++ "] Result:\n" ++ r.2.2)
      "delegate_parallel"])
    mem

/-- Python dict access on a tool call's argument dictionary. -/
def argGet (args : List (String × String)) (k : String) : Option String :=
  (args.find? (fun p => p.1 = k)).map (fun p => p.2)

/-- `AgentRunner._find_delegate_call` (runner.py lines 280-285): the
first tool call named `delegate_to`, if any.  No other tool name — in
particular not `delegate_parallel` — is looked for. -/
def find_delegate_call (tool_calls : List ToolCall) : Option ToolCall :=
  tool_calls.find? (fun c => c.name = "delegate_to")

/-- The body of the `delegate_parallel` tool
(`create_delegate_parallel_tool`, tools.py lines 50-67): when the tool
is actually invoked by Python it returns the sentinel string
`__DELEGATE_PARALLEL__: <tasks>`. -/
def delegate_parallel_tool (args : List (String × String)) : Except String String :=
  match argGet args "tasks" with
  | some tasks => .ok ("__DELEGATE_PARALLEL__: " ++ tasks)
  | none => .error "ValidationError: missing tasks"

/-- `AgentRunner._execute_tools` (runner.py lines 287-325): look each
call's name up in `tools_by_name`; a missing tool yields
`Error: Tool '<name>' not found.`, a raising tool yields
`Tool execution failed: <e>`; with a memory manager present, an output
over 2000 characters is offloaded (`_offload_large_output`, an abstract
parameter here since it performs artifact I/O); each result becomes a
tool message carrying the call's id and name. -/
def execute_tools (tools_by_name : String → Option (List (String × String) → Except String String))
    (has_memory : Bool) (offload : String → String → String)
    (tool_calls : List ToolCall) : List Msg :=
  tool_calls.map (fun call =>
    let output : String :=
      match tools_by_name call.name with
      | none => "Error: Tool '" ++ call.name ++ "' not found."
      | some t =>
        match t call.args with
        | .ok out => out
        | .error e => "Tool execution failed: " ++ e
    let final_output :=
      if has_memory then
        if output.length > 2000 then offload output call.name else output
      else output
    Msg.tool (some call.id) final_output call.name)

/-- Python `s.startswith(pre)` (character-level prefix test). -/
def pyStartsWith (s pre : String) : Bool :=
  s.toList.take pre.toList.length = pre.toList

/-- Split a string at the first occurrence of `sep`
(Python `s.split(sep, 1)` when `sep` occurs; `none` when it does not,
in which case two-target unpacking raises `ValueError`). -/
def splitFirst (sep : Char) (s : String) : Option (String × String) :=
  match s.toList.findIdx? (fun c => c = sep) with
  | none => none
  | some i => some (⟨s.toList.take i⟩, ⟨s.toList.drop (i + 1)⟩)

/-- The skill-sentinel scan of `AgentRunner.step` (runner.py lines
245-272): a tool result whose content starts with `__USE_SKILL__:` is
parsed into a USE_SKILL signal (the part after the first `:` is split at
the first `|` into stripped name and args; a parse failure keeps the
message); every other result is kept.  A later sentinel overwrites an
earlier one, and sentinel messages are not appended to memory. -/
def filter_skill_results (results : List Msg) : List Msg × Option ControlSignal :=
  results.foldl
    (fun acc res =>
      match res with
      | Msg.tool tcid content _ =>
        if pyStartsWith content "__USE_SKILL__:" then
          match splitFirst '|' (content.drop 14) with
          | some (n, a) =>
            (acc.1,
             some { type := SignalType.USE_SKILL, skill_name := some n.trim,
                    skill_args := some a.trim, tool_call_id := tcid })
          | none => (acc.1 ++ [res], acc.2)
        else (acc.1 ++ [res], acc.2)
      | _ => (acc.1 ++ [res], acc.2))
    ([], none)

/-- The assistant response an `AgentRunner.step` accumulated from the
model stream. -/
structure AIResponse where
  content : String
  tool_calls : List ToolCall
  reasoning_content : Option String
deriving DecidableEq

/-- The response-interpretation stage of `AgentRunner.step` (runner.py
lines 196-278), after the accumulated response has been appended to the
frame's memory.  A `delegate_to` call produces a DELEGATE signal
(serialising the assistant message down to that call when several were
present); otherwise every call is executed as an ordinary tool via
`execute_tools`, the results are scanned for skill sentinels and
appended, and the signal is USE_SKILL or CONTINUE; with no tool calls
the content is returned.  A `delegate_to` call lacking `target` or
`instruction` arguments raises `KeyError`. -/
def step_interpret
    (tools_by_name : String → Option (List (String × String) → Except String String))
    (has_memory : Bool) (offload : String → String → String)
    (mem : List Msg) (response : AIResponse) : Except String (ControlSignal × List Msg) :=
  let mem1 := mem ++ [Msg.assistant response.content response.tool_calls
    response.reasoning_content]
  if response.tool_calls = [] then
    .ok ({ type := SignalType.RETURN, result := some response.content }, mem1)
  else
    match find_delegate_call response.tool_calls with
    | some call =>
      let mem2 :=
        if response.tool_calls.length > 1 then
          mem ++ [Msg.assistant response.content [call] response.reasoning_content]
        else mem1
      match argGet call.args "target", argGet call.args "instruction" with
      | some t, some i =>
        .ok ({ type := SignalType.DELEGATE, target_agent := some t, instruction := some i,
               tool_call_id := some call.id }, mem2)
      | _, _ => .error "KeyError"
    | none =>
      let tool_results := execute_tools tools_by_name has_memory offload response.tool_calls
      let fr := filter_skill_results tool_results
      let mem2 := mem1 ++ fr.1
      match fr.2 with
      | some sig => .ok (sig, mem2)
      | none => .ok ({ type := SignalType.CONTINUE }, mem2)

/-- The keyword-parameter names of `MemoryManager.search_knowledge`
(manager.py lines 315-320): `(self, query, top_k=5, filter_metadata=None)`. -/
def search_knowledge_kwparams : List String := ["query", "top_k", "filter_metadata"]

/-- The keyword-parameter names of `MemoryManager.add_knowledge`
(manager.py lines 342-346): `(self, content, metadata=None)`. -/
def add_knowledge_kwparams : List String := ["content", "metadata"]

/-- Python keyword-call legality: every keyword argument used at a call
site must name a parameter of the callee, otherwise the call raises
`TypeError` before the body runs. -/
def kwargs_accepted (params kwargs : List String) : Bool :=
  kwargs.all (fun k => params.contains k)

/-- A semantic-store search hit as the memory tools see it: content and
relevance score (the store computes `1 - distance`; scores are modelled
as exact rationals). -/
structure MemEntry where
  content : String
  score : ℚ
deriving DecidableEq

/-- `_should_store` (tools.py lines 102-112).  Its body runs
`memory.search_knowledge(content, top_k=1, agent_id=agent_id)` — one
positional argument plus keywords `top_k` and `agent_id` — and stores
only when there is no hit of score ≥ `threshold`.  `search` abstracts
the semantic store's query.  Because `agent_id` is not a parameter of
`MemoryManager.search_knowledge`, the call raises `TypeError` before
any search happens. -/
def should_store (search : String → Nat → String → List MemEntry)
    (content agent_id : String) (threshold : ℚ) : Except String Bool :=
  if kwargs_accepted search_knowledge_kwparams ["top_k", "agent_id"] then
    match search content 1 agent_id with
    | [] => .ok true
    | e :: _ => .ok (decide (e.score < threshold))
  else
    .error "TypeError: search_knowledge() got an unexpected keyword argument agent_id"

/-- The `remember` tool (tools.py lines 143-158), with the stored-entry
list as explicit state (entries are `(agent_id, content, importance)`).
It first runs `_should_store` (threshold 0.95 = 19/20) outside any
`try`; on a duplicate it returns without storing; otherwise it calls
`memory.add_knowledge(content, metadata={...}, agent_id=agent_id)`
inside `try/except`, whose illegal `agent_id` keyword would be reported
as the storage-failure string. -/
def remember (search : String → Nat → String → List MemEntry) (agent_id : String)
    (store : List (String × String × String)) (content importance : String) :
    Except String (String × List (String × String × String)) :=
  match should_store search content agent_id (19 / 20) with
  | .error e => .error e
  | .ok false => .ok ("duplicate: 已存在相似记忆，无需重复存储", store)
  | .ok true =>
    if kwargs_accepted add_knowledge_kwparams ["metadata", "agent_id"] then
      .ok ("success: 记忆已存储，重要程度: " ++ importance,
        store ++ [(agent_id, content, importance)])
    else
      .ok ("error: 存储失败，embedding 服务暂时不可用", store)

/-- Index of the last `_` in a character list (`str.rfind("_")`),
`none` when absent (Python returns -1). -/
def rfindUnderscore : List Char → Option Nat
  | [] => none
  | c :: cs =>
    match rfindUnderscore cs with
    | some i => some (i + 1)
    | none => if c = '_' then some 0 else none

/-- The numeric value of a decimal digit, `none` otherwise. -/
def digitVal (c : Char) : Option Nat :=
  if '0' ≤ c ∧ c ≤ '9' then some (c.toNat - 48) else none

/-- Digit-group tail of Python's `int()` grammar: after a first digit,
further digits with single underscores allowed strictly between
digits. -/
def parseDigitsAux : Nat → List Char → Option Nat
  | acc, [] => some acc
  | acc, c :: cs =>
    if c = '_' then
      match cs with
      | c2 :: cs2 =>
        match digitVal c2 with
        | some d => parseDigitsAux (acc * 10 + d) cs2
        | none => none
      | [] => none
    else
      match digitVal c with
      | some d => parseDigitsAux (acc * 10 + d) cs
      | none => none

/-- A nonempty digit group starting with a digit
(`digit (["_"] digit)*`). -/
def parseDigits : List Char → Option Nat
  | [] => none
  | c :: cs =>
    match digitVal c with
    | some d => parseDigitsAux d cs
    | none => none

/-- Python `int(s)` on a string: optional surrounding whitespace, an
optional single sign, then a digit group with optional single
underscores between digits; anything else raises `ValueError`
(`none`). -/
def pyInt (s : List Char) : Option Int :=
  let t := ((s.dropWhile Char.isWhitespace).reverse.dropWhile Char.isWhitespace).reverse
  match t with
  | [] => none
  | c :: cs =>
    if c = '+' then (parseDigits cs).map Int.ofNat
    else if c = '-' then (parseDigits cs).map (fun n => -(n : Int))
    else (parseDigits (c :: cs)).map Int.ofNat

/-- `SessionManager.parse_session_id` (session_manager.py lines
219-260) on the session-id's character list: split at the last `_`,
parse the tail as a Python int (`seq`); the remainder must be at least
11 characters with `_` at position `len - 11`; its last 10 characters
are the date (their content — in particular the hyphens — is not
inspected) and the rest, which must be nonempty, is the user id. -/
def parse_session_id (s : List Char) : Except String (List Char × List Char × Int) :=
  match rfindUnderscore s with
  | none => .error "Invalid session_id format"
  | some i =>
    let seq_str := s.drop (i + 1)
    let rest := s.take i
    match pyInt seq_str with
    | none => .error "Invalid seq in session_id"
    | some seq =>
      if rest.length < 11 then .error "Invalid date in session_id"
      else if rest.getD (rest.length - 11) ' ' ≠ '_' then
        .error "Invalid date in session_id"
      else
        let date := rest.drop (rest.length - 10)
        let user_id := rest.take (rest.length - 11)
        if user_id = [] then .error "Empty user_id in session_id"
        else .ok (user_id, date, seq)

/-- Canonical decimal rendering of a natural number (Python `str(n)`
for `n ≥ 0`). -/
def natRepr (n : Nat) : List Char :=
  if _h : n < 10 then [Nat.digitChar n]
  else natRepr (n / 10) ++ [Nat.digitChar (n % 10)]
decreasing_by exact Nat.div_lt_self (by omega) (by omega)

/-- Python `str(seq)` for an int. -/
def intRepr (n : Int) : List Char :=
  if n < 0 then '-' :: natRepr n.natAbs else natRepr n.toNat

/-- `SessionManager._build_session_id` (session_manager.py lines
262-265): the f-string `{user_id}_{date}_{seq}`. -/
def build_session_id (user_id date : List Char) (seq : Int) : List Char :=
  user_id ++ '_' :: date ++ '_' :: intRepr seq

/-- The spec's `YYYY-MM-DD` date shape: exactly 10 characters, digits
except for hyphens at positions 4 and 7. -/
def isDateForm (d : List Char) : Bool :=
  d.length = 10 &&
    (List.range 10).all (fun i =>
      match d.get? i with
      | none => false
      | some c => if i = 4 ∨ i = 7 then c = '-' else c.isDigit)

/-- Claim C3: for registered agents A and B, the delegation permission
check passes iff A and B share a group or both are leaders; and on a
denied check the DELEGATE handler pushes no child frame — the stack
keeps its frames, only the delegating top frame changing — and appends
an error tool-message to the delegating frame. -/
theorem delegation_permission (A B : AgentCfg) (stack : List TaskFrame) (frame : TaskFrame)
    (signal : ControlSignal) (tcid : String)
    (hty : signal.type = SignalType.DELEGATE) (hid : signal.tool_call_id = some tcid) :
    (check_permission (some A) (some B) = true ↔
      (A.group = B.group ∨ (A.is_leader = true ∧ B.is_leader = true)))
    ∧ (check_permission (some A) (some B) = false →
      delegate_case (stack ++ [frame]) (some A) (some B) signal =
        .ok (stack ++ [{ frame with memory := frame.memory ++
          [Msg.tool (some tcid)
            ("Error: " ++ ("Permission Denied: " ++ A.node_id ++ " -> " ++ B.node_id))
            "delegate_to"] }])) := by
  constructor
  · by_cases h : A.group = B.group
    · simp [check_permission, h]
    · simp [check_permission, h, Bool.and_eq_true]
  · intro hperm
    have hne : signal.type ≠ SignalType.DELEGATE_PARALLEL := by
      rw [hty]; intro hc; cases hc
    simp [delegate_case, hperm, handle_delegation_error, hne, hid]

/-- Witness for `delegation_permission`: a leader of group A delegating
to a non-leader of group B is denied and the error tool-message is
injected in place of a push. -/
theorem delegation_permission_witness :
    check_permission (some ⟨"leader", some "A", true⟩) (some ⟨"worker", some "B", false⟩)
      = false ∧
    delegate_case [⟨"A__leader", [], "", none, none⟩] (some ⟨"leader", some "A", true⟩)
        (some ⟨"worker", some "B", false⟩)
        { type := SignalType.DELEGATE, target_agent := some "B__worker",
          instruction := some "x", tool_call_id := some "call_1" } =
      .ok [⟨"A__leader",
        [Msg.tool (some "call_1") "Error: Permission Denied: A__leader -> B__worker"
          "delegate_to"], "", none, none⟩] := by
  refine ⟨by decide, ?_⟩
  have h := (delegation_permission ⟨"leader", some "A", true⟩ ⟨"worker", some "B", false⟩ []
    ⟨"A__leader", [], "", none, none⟩
    { type := SignalType.DELEGATE, target_agent := some "B__worker",
      instruction := some "x", tool_call_id := some "call_1" } "call_1" rfl rfl).2 (by decide)
  exact h

/-- Claim C10: popping a frame that has a parent but no
`parent_tool_call_id` appends the result to the parent as a human
message with content `Result:\n<result>`, the parent being otherwise
unchanged and the loop continuing. -/
theorem return_without_tool_call_id (pre : List TaskFrame) (parent completed : TaskFrame)
    (r : String) (h : completed.parent_tool_call_id = none) :
    return_case (pre ++ [parent, completed]) (some r) =
      (pre ++ [{ parent with memory := parent.memory ++ [Msg.human ("Result:\n" ++ r)] }],
       none) := by
  simp [return_case, h, pyOptStr]

/-- Witness for `return_without_tool_call_id`. -/
theorem return_without_tool_call_id_witness :
    return_case [⟨"root", [], "", none, none⟩, ⟨"child", [], "do", none, none⟩] (some "42") =
      ([⟨"root", [Msg.human "Result:\n42"], "", none, none⟩], none) := by
  exact return_without_tool_call_id [] ⟨"root", [], "", none, none⟩
    ⟨"child", [], "do", none, none⟩ "42" rfl

/-- Claim C9 (code bug): every invocation of the `remember` tool raises
`TypeError` — `_should_store` passes the keyword argument `agent_id` to
`MemoryManager.search_knowledge`, whose parameters are only `query`,
`top_k`, `filter_metadata` — so no duplicate check ever runs and
nothing is ever stored, whatever the search backend returns. -/
theorem remember_always_raises (search : String → Nat → String → List MemEntry)
    (agent_id : String) (store : List (String × String × String))
    (content importance : String) :
    remember search agent_id store content importance =
      .error "TypeError: search_knowledge() got an unexpected keyword argument agent_id" := by
  rfl

/-- Claim C4: whenever `resolve_path` returns a path, that path is the
symlink-resolved target and lies at or below the root; and it refuses
(raises `PermissionDenied`) exactly when the resolved target falls
outside the root. -/
theorem resolve_path_sandbox (rslv : List String → List String) (root p : List String)
    (is_absolute : Bool) :
    (∀ out, resolve_path rslv root p is_absolute = some out →
      root <+: out ∧ out = (if is_absolute then rslv p else rslv (root ++ p)))
    ∧ (resolve_path rslv root p is_absolute = none ↔
        ¬ root <+: (if is_absolute then rslv p else rslv (root ++ p))) := by
  by_cases h : root <+: (if is_absolute then rslv p else rslv (root ++ p))
  · constructor
    · intro out hout
      simp only [resolve_path, if_pos h] at hout
      cases hout
      exact ⟨h, rfl⟩
    · simp [resolve_path, if_pos h, h]
  · constructor
    · intro out hout
      simp [resolve_path, if_neg h] at hout
    · simp [resolve_path, if_neg h, h]

/-- Witness for `resolve_path_sandbox`: with the identity resolution,
`a` relative to root `/home/ws` resolves inside the root. -/
theorem resolve_path_sandbox_witness :
    resolve_path id ["home", "ws"] ["a"] false = some ["home", "ws", "a"] ∧
    ["home", "ws"] <+: ["home", "ws", "a"] := by
  have hsome : resolve_path id ["home", "ws"] ["a"] false = some ["home", "ws", "a"] := by
    decide
  exact ⟨hsome,
    ((resolve_path_sandbox id ["home", "ws"] ["a"] false).1 ["home", "ws", "a"] hsome).1⟩

/-- Counterexample to claim C2 as stated: the blob path contains the
save's calendar date (`blobs/YYYY/MM/DD/aa/bb/<hash>`), so two saves of
the same content with timestamps on different dates write two blob
files both named by the content hash.  The blob count depends on the
hash function only through equality of its outputs on equal inputs, so
the identity function instantiates the abstract SHA-256 parameter
without loss. -/
theorem save_artifact_two_blobs_across_dates :
    blobCountWithFilename
      (save_artifact (fun s => s)
        (save_artifact (fun s => s) ⟨[], []⟩ "hello" "t1" "ann" "g" [] "text" "2026/01/01")
        "hello" "t2" "bob" "g" [] "text" "2026/01/02")
      "hello" = 2 := by
  decide

/-- A duplicate-free list whose members all equal `a` has at most one
element. -/
lemma length_le_one_of_nodup_all_eq {α : Type} (l : List α) (a : α)
    (hnd : l.Nodup) (hall : ∀ x ∈ l, x = a) : l.length ≤ 1 := by
  match l with
  | [] => simp
  | [x] => simp
  | x :: y :: rest =>
    exfalso
    have hx : x = a := hall x (by simp)
    have hy : y = a := hall y (by simp)
    have : x ∉ y :: rest := (List.nodup_cons.mp hnd).1
    exact this (by simp [hx, hy])

/-- Invariant of the per-date save sequence: starting from blobs that
are duplicate-free and all dated `dateDir`, every save preserves both
properties and appends exactly one metadata row. -/
lemma save_sequence_invariant (sha256 : String → String) (dateDir : String) :
    ∀ (calls : List (String × SaveArgs)) (st : ArtifactState),
      st.blobs.Nodup → (∀ b ∈ st.blobs, b.1 = dateDir) →
      (calls.foldl
        (fun st call =>
          save_artifact sha256 st call.1 call.2.title call.2.author call.2.group_id
            call.2.tags call.2.artifact_type dateDir) st).blobs.Nodup ∧
      (∀ b ∈ (calls.foldl
        (fun st call =>
          save_artifact sha256 st call.1 call.2.title call.2.author call.2.group_id
            call.2.tags call.2.artifact_type dateDir) st).blobs, b.1 = dateDir) ∧
      (calls.foldl
        (fun st call =>
          save_artifact sha256 st call.1 call.2.title call.2.author call.2.group_id
            call.2.tags call.2.artifact_type dateDir) st).rows.length
        = st.rows.length + calls.length := by
  intro calls
  induction calls with
  | nil => intro st h1 h2; exact ⟨h1, h2, by simp⟩
  | cons hd tl ih =>
    intro st h1 h2
    set st' := save_artifact sha256 st hd.1 hd.2.title hd.2.author hd.2.group_id
      hd.2.tags hd.2.artifact_type dateDir with hst'
    have hblobs : st'.blobs =
        if (dateDir, sha256 hd.1) ∈ st.blobs then st.blobs
        else st.blobs ++ [(dateDir, sha256 hd.1)] := rfl
    have hrows : st'.rows.length = st.rows.length + 1 := by
      simp [hst', save_artifact]
    have h1' : st'.blobs.Nodup := by
      rw [hblobs]
      split
      · exact h1
      · next hmem =>
        simp [List.nodup_append, h1, hmem]
    have h2' : ∀ b ∈ st'.blobs, b.1 = dateDir := by
      rw [hblobs]
      split
      · exact h2
      · intro b hb
        rcases List.mem_append.mp hb with hb | hb
        · exact h2 b hb
        · simp at hb; rw [hb]
    have := ih st' h1' h2'
    refine ⟨this.1, this.2.1, ?_⟩
    rw [List.foldl_cons, ← hst', this.2.2, hrows]
    simp [Nat.add_assoc, Nat.add_comm 1]

/-- Claim C2, amended: across any sequence of saves whose timestamps
share one calendar date, at most one blob file is named by the hash of
`c`, while every save inserts a new metadata row (deduplication is
per-date: the blob directory embeds the save date). -/
theorem save_artifact_dedup_per_date (sha256 : String → String) (dateDir : String)
    (calls : List (String × SaveArgs)) (c : String) :
    blobCountWithFilename (save_sequence sha256 dateDir calls) (sha256 c) ≤ 1 ∧
    (save_sequence sha256 dateDir calls).rows.length = calls.length := by
  have hinv := save_sequence_invariant sha256 dateDir calls ⟨[], []⟩ (by simp) (by simp)
  refine ⟨?_, by simpa [save_sequence] using hinv.2.2⟩
  unfold blobCountWithFilename
  apply length_le_one_of_nodup_all_eq _ (dateDir, sha256 c)
  · exact hinv.1.filter _
  · intro x hx
    have hmem := List.mem_filter.mp hx
    have h1 := hinv.2.1 x hmem.1
    have h2 : x.2 = sha256 c := by simpa using hmem.2
    exact Prod.ext h1 h2

/-- A successful resolution loop keeps the declared targets: the second
components of its output are the input targets, in order. -/
lemma resolve_and_check_map_snd (resolve : String → Option AgentCfg)
    (src : Option AgentCfg) :
    ∀ (pds : List ParallelDelegateTarget) (resolved : List (AgentCfg × ParallelDelegateTarget)),
      resolve_and_check resolve src pds = .ok resolved →
      resolved.map (fun p => p.2) = pds := by
  intro pds
  induction pds with
  | nil =>
    intro resolved h
    simp only [resolve_and_check] at h
    cases h
    simp
  | cons pd rest ih =>
    intro resolved h
    simp only [resolve_and_check] at h
    split at h
    · cases h
    · next tc _ =>
      split at h
      · split at h
        · next tail htail =>
          cases h
          simp [ih tail htail]
        · cases h
      · split at h <;> cases h

/-- The aggregation fold appends exactly the mapped tool messages. -/
lemma inject_parallel_results_eq_append (tcid : Option String) :
    ∀ (results : List (AgentCfg × ParallelDelegateTarget × String)) (mem : List Msg),
      inject_parallel_results mem tcid results =
        mem ++ results.map (fun r =>
          Msg.tool tcid ("[" ++ r.1.node_id ++ "] Result:\n" ++ r.2.2) "delegate_parallel") := by
  intro results
  induction results with
  | nil => intro mem; simp [inject_parallel_results]
  | cons r rs ih =>
    intro mem
    simp only [inject_parallel_results, List.foldl_cons, List.map_cons]
    rw [show (rs.foldl (fun m r => m ++ [Msg.tool tcid
      ("[" ++ r.1.node_id ++ "] Result:\n" ++ r.2.2) "delegate_parallel"]) (mem ++ [Msg.tool tcid
      ("[" ++ r.1.node_id ++ "] Result:\n" ++ r.2.2) "delegate_parallel"])) =
      inject_parallel_results (mem ++ [Msg.tool tcid
      ("[" ++ r.1.node_id ++ "] Result:\n" ++ r.2.2) "delegate_parallel"]) tcid rs from rfl]
    rw [ih]
    simp

/-- Claim C6: a parallel delegation whose targets all resolve and pass
the permission check appends to the delegating frame exactly one tool
message per declared target — in declaration order, each labelled with
that target's node id and carrying that target's (retry-substituted)
result — independent of sub-agent completion order, which the gather
semantics keeps out of the result list. -/
theorem parallel_aggregation (resolve : String → Option AgentCfg) (src : Option AgentCfg)
    (pds : List ParallelDelegateTarget) (resolved : List (AgentCfg × ParallelDelegateTarget))
    (try1 try2 : AgentCfg → ParallelDelegateTarget → Except String String)
    (mem : List Msg) (tcid : Option String)
    (hok : resolve_and_check resolve src pds = .ok resolved) :
    inject_parallel_results mem tcid (run_parallel_delegates try1 try2 resolved) =
      mem ++ resolved.map (fun p =>
        Msg.tool tcid ("[" ++ p.1.node_id ++ "] Result:\n" ++ run_one try1 try2 p.1 p.2)
          "delegate_parallel")
    ∧ resolved.map (fun p => p.2) = pds
    ∧ resolved.length = pds.length := by
  have hsnd := resolve_and_check_map_snd resolve src pds resolved hok
  refine ⟨?_, hsnd, ?_⟩
  · rw [run_parallel_delegates, inject_parallel_results_eq_append, List.map_map]
    rfl
  · rw [← hsnd, List.length_map]

/-- Witness for `parallel_aggregation`: two targets of the leader's
group, the second failing once and succeeding on retry, aggregate in
declaration order. -/
theorem parallel_aggregation_witness :
    inject_parallel_results [] (some "call_9")
      (run_parallel_delegates
        (fun tc _ => if tc.name = "analyst" then .ok "A-OK" else .error "boom")
        (fun _ _ => .ok "R-OK")
        [(⟨"analyst", some "A", false⟩, ⟨"analyst", "i1", "c1"⟩),
         (⟨"researcher", some "A", false⟩, ⟨"researcher", "i2", "c2"⟩)]) =
      [Msg.tool (some "call_9") "[A__analyst] Result:\nA-OK" "delegate_parallel",
       Msg.tool (some "call_9") "[A__researcher] Result:\nR-OK" "delegate_parallel"] := by
  have h := (parallel_aggregation
    (fun n => if n = "analyst" then some ⟨"analyst", some "A", false⟩
      else if n = "researcher" then some ⟨"researcher", some "A", false⟩ else none)
    (some ⟨"leader", some "A", true⟩)
    [⟨"analyst", "i1", "c1"⟩, ⟨"researcher", "i2", "c2"⟩]
    [(⟨"analyst", some "A", false⟩, ⟨"analyst", "i1", "c1"⟩),
     (⟨"researcher", some "A", false⟩, ⟨"researcher", "i2", "c2"⟩)]
    (fun tc _ => if tc.name = "analyst" then .ok "A-OK" else .error "boom")
    (fun _ _ => .ok "R-OK") [] (some "call_9") (by rfl)).1
  exact h

/-- Claim C1 (code bug): `AgentRunner.step` looks only for
`delegate_to` (`_find_delegate_call`); a response whose sole tool call
targets `delegate_parallel` is executed as an ordinary tool — the
tool's sentinel string is appended to memory as a tool message that
nothing ever consumes — and the step returns CONTINUE; no JSON task
list is decoded and no DELEGATE_PARALLEL signal is produced. -/
theorem step_delegate_parallel_not_intercepted :
    step_interpret
      (fun n => if n = "delegate_parallel" then some delegate_parallel_tool else none)
      true (fun s _ => s) []
      { content := "",
        tool_calls := [⟨"delegate_parallel", [("tasks", "json-task-list")], "call_1"⟩],
        reasoning_content := none } =
      .ok ({ type := SignalType.CONTINUE },
        [Msg.assistant "" [⟨"delegate_parallel", [("tasks", "json-task-list")], "call_1"⟩] none,
         Msg.tool (some "call_1") "__DELEGATE_PARALLEL__: json-task-list"
           "delegate_parallel"]) := by
  rfl

/-- The token budget of builder.py lines 69-70:
`int(model_limit * safety_margin) - response_buffer` as a Python int. -/
def context_budget (safety_num safety_den response_buffer L : Nat) : Int :=
  ((L * safety_num / safety_den : Nat) : Int) - (response_buffer : Int)

/-- Specification of the newest-first selection loop on the reversed
history: it splits its input into a taken part (returned reversed) whose
cost fits the budget and a dropped part whose first element — the first
message that did not fit — overruns what remained. -/
lemma select_newest_first_spec (cnt : Msg → Nat) :
    ∀ (l : List Msg) (rem : Int), 0 ≤ rem →
      ∃ tk dr, l = tk ++ dr ∧
        select_newest_first cnt rem l = tk.reverse ∧
        ((tk.map cnt).sum : Int) ≤ rem ∧
        ∀ m dr', dr = m :: dr' → rem - ((tk.map cnt).sum : Int) - (cnt m : Int) < 0 := by
  intro l
  induction l with
  | nil =>
    intro rem hrem
    exact ⟨[], [], by simp, by simp [select_newest_first], by simpa using hrem,
      by intro m dr' h; cases h⟩
  | cons m ms ih =>
    intro rem hrem
    by_cases hfit : rem - (cnt m : Int) < 0
    · refine ⟨[], m :: ms, rfl, by simp [select_newest_first, hfit], by simpa using hrem, ?_⟩
      intro m' dr' h
      cases h
      simpa using hfit
    · have hfit' : 0 ≤ rem - (cnt m : Int) := by omega
      obtain ⟨tk, dr, hsplit, hsel, hsum, hstop⟩ := ih (rem - (cnt m : Int)) hfit'
      refine ⟨m :: tk, dr, by simp [hsplit], ?_, ?_, ?_⟩
      · simp [select_newest_first, hfit, hsel]
      · simp only [List.map_cons, List.sum_cons, Nat.cast_add]
        omega
      · intro m' dr' h
        have := hstop m' dr' h
        simp only [List.map_cons, List.sum_cons, Nat.cast_add]
        omega

/-- Claim C5: with budget `⌊L·safety⌋ − response_buffer`, the builder
returns exactly the system message when it alone overruns the budget;
otherwise it returns the system message followed by a contiguous suffix
of the history in original order, whose cost fits the budget left after
the system message, the message just older than the retained suffix (if
any) being the first one that did not fit. -/
theorem build_context_spec (cnt : Msg → Nat) (safety_num safety_den response_buffer : Nat)
    (P : String) (H : List Msg) (L : Nat) :
    ((cnt (Msg.system P) : Int) > context_budget safety_num safety_den response_buffer L →
      build_context cnt safety_num safety_den response_buffer P H L = [Msg.system P])
    ∧ ((cnt (Msg.system P) : Int) ≤ context_budget safety_num safety_den response_buffer L →
      ∃ sel, build_context cnt safety_num safety_den response_buffer P H L =
          Msg.system P :: sel
        ∧ sel <:+ H
        ∧ ((sel.map cnt).sum : Int) ≤
            context_budget safety_num safety_den response_buffer L - (cnt (Msg.system P) : Int)
        ∧ ∀ pre m, H = pre ++ m :: sel →
            context_budget safety_num safety_den response_buffer L
              - (cnt (Msg.system P) : Int) - ((sel.map cnt).sum : Int) - (cnt m : Int) < 0) := by
  constructor
  · intro h
    have hneg : (((L * safety_num / safety_den : Nat) : Int) - (response_buffer : Int))
        - (cnt (Msg.system P) : Int) < 0 := by
      simp only [context_budget] at h
      omega
    simp only [build_context]
    rw [if_pos hneg]
  · intro h
    have h0 : 0 ≤ (((L * safety_num / safety_den : Nat) : Int) - (response_buffer : Int))
        - (cnt (Msg.system P) : Int) := by
      simp only [context_budget] at h
      omega
    obtain ⟨tk, dr, hsplit, hsel, hsum, hstop⟩ := select_newest_first_spec cnt H.reverse _ h0
    have hH : H = dr.reverse ++ tk.reverse := by
      have := congrArg List.reverse hsplit
      simpa [List.reverse_append] using this
    refine ⟨tk.reverse, ?_, ⟨dr.reverse, hH.symm⟩, ?_, ?_⟩
    · have hnotneg : ¬ ((((L * safety_num / safety_den : Nat) : Int) - (response_buffer : Int))
          - (cnt (Msg.system P) : Int) < 0) := by omega
      simp only [build_context]
      rw [if_neg hnotneg, hsel]
    · simp only [context_budget, List.map_reverse, List.sum_reverse]
      exact hsum
    · intro pre m hprem
      have hdr : dr = m :: pre.reverse := by
        have hcat : (pre ++ [m]) ++ tk.reverse = dr.reverse ++ tk.reverse := by
          rw [← hH, hprem]
          simp
        have hpm : pre ++ [m] = dr.reverse := List.append_cancel_right hcat
        have := congrArg List.reverse hpm
        exact (by simpa using this : m :: pre.reverse = dr).symm
      have := hstop m pre.reverse hdr
      simp only [context_budget, List.map_reverse, List.sum_reverse]
      omega

/-- `rfind` looks at the suffix first: on an append, a hit in the right
part wins, shifted by the left part's length. -/
lemma rfindUnderscore_append (xs ys : List Char) :
    rfindUnderscore (xs ++ ys) =
      match rfindUnderscore ys with
      | some i => some (xs.length + i)
      | none => rfindUnderscore xs := by
  induction xs with
  | nil =>
    cases h : rfindUnderscore ys <;> simp [h, rfindUnderscore]
  | cons c cs ih =>
    rw [List.cons_append, rfindUnderscore, ih]
    cases h : rfindUnderscore ys with
    | none =>
      conv_rhs => rw [rfindUnderscore]
    | some i =>
      simp only [List.length_cons, Option.some.injEq]
      omega

lemma rfindUnderscore_eq_none (l : List Char) (h : '_' ∉ l) : rfindUnderscore l = none := by
  induction l with
  | nil => rfl
  | cons c cs ih =>
    simp only [List.mem_cons, not_or] at h
    rw [rfindUnderscore, ih h.2, if_neg (by exact fun hc => h.1 hc.symm)]

lemma digitVal_digitChar (d : Nat) (h : d < 10) : digitVal (Nat.digitChar d) = some d := by
  interval_cases d <;> decide

lemma digitChar_not_special (d : Nat) (h : d < 10) :
    (Nat.digitChar d).isWhitespace = false ∧ Nat.digitChar d ≠ '+' ∧
      Nat.digitChar d ≠ '-' ∧ Nat.digitChar d ≠ '_' := by
  interval_cases d <;> exact ⟨by decide, by decide, by decide, by decide⟩

lemma natRepr_ne_nil (n : Nat) : natRepr n ≠ [] := by
  rw [natRepr]
  split <;> simp

lemma natRepr_mem (n : Nat) : ∀ c ∈ natRepr n, ∃ d, d < 10 ∧ c = Nat.digitChar d := by
  induction n using Nat.strong_induction_on with
  | _ n ih =>
    intro c hc
    rw [natRepr] at hc
    split at hc
    · next h =>
      simp only [List.mem_singleton] at hc
      exact ⟨n, h, hc⟩
    · next h =>
      rcases List.mem_append.mp hc with h1 | h1
      · exact ih (n / 10) (Nat.div_lt_self (by omega) (by omega)) c h1
      · simp only [List.mem_singleton] at h1
        exact ⟨n % 10, Nat.mod_lt _ (by omega), h1⟩

lemma parseDigitsAux_all_digits (l : List Char) :
    ∀ acc, (∀ c ∈ l, (digitVal c).isSome) →
      parseDigitsAux acc l =
        some (l.foldl (fun a c => a * 10 + (digitVal c).getD 0) acc) := by
  induction l with
  | nil => intro acc _; rfl
  | cons c cs ih =>
    intro acc h
    have hc : (digitVal c).isSome := h c (by simp)
    obtain ⟨d, hd⟩ := Option.isSome_iff_exists.mp hc
    have hne : c ≠ '_' := by
      intro he
      rw [he] at hd
      cases hd
    have hunf : parseDigitsAux acc (c :: cs) = parseDigitsAux (acc * 10 + d) cs := by
      rw [parseDigitsAux.eq_def]
      simp [if_neg hne, hd]
    rw [hunf, ih (acc * 10 + d) (fun x hx => h x (by simp [hx]))]
    simp [List.foldl_cons, hd]

lemma parseDigits_all_digits (l : List Char) (hne : l ≠ [])
    (h : ∀ c ∈ l, (digitVal c).isSome) :
    parseDigits l = some (l.foldl (fun a c => a * 10 + (digitVal c).getD 0) 0) := by
  cases l with
  | nil => exact absurd rfl hne
  | cons c cs =>
    obtain ⟨d, hd⟩ := Option.isSome_iff_exists.mp (h c (by simp))
    rw [show parseDigits (c :: cs) = parseDigitsAux d cs from by simp [parseDigits, hd]]
    rw [parseDigitsAux_all_digits cs d (fun x hx => h x (by simp [hx]))]
    simp [List.foldl_cons, hd]

lemma natRepr_foldl (n : Nat) :
    ∀ acc, (natRepr n).foldl (fun a c => a * 10 + (digitVal c).getD 0) acc =
      acc * 10 ^ (natRepr n).length + n := by
  induction n using Nat.strong_induction_on with
  | _ n ih =>
    intro acc
    rw [natRepr]
    split
    · next h =>
      simp [digitVal_digitChar n h]
    · next h =>
      have hlt : n / 10 < n := Nat.div_lt_self (by omega) (by omega)
      rw [List.foldl_append, ih (n / 10) hlt acc]
      simp only [List.foldl_cons, List.foldl_nil, List.length_append, List.length_singleton]
      rw [digitVal_digitChar (n % 10) (Nat.mod_lt _ (by omega))]
      simp only [Option.getD_some]
      rw [pow_succ]
      have := Nat.div_add_mod n 10
      ring_nf
      omega

lemma dropWhile_eq_self_of_all (p : Char → Bool) (l : List Char)
    (h : ∀ c ∈ l, p c = false) : l.dropWhile p = l := by
  cases l with
  | nil => rfl
  | cons c cs =>
    rw [List.dropWhile_cons, if_neg]
    simp [h c (by simp)]

lemma stripWS_eq_self (l : List Char) (h : ∀ c ∈ l, c.isWhitespace = false) :
    ((l.dropWhile Char.isWhitespace).reverse.dropWhile Char.isWhitespace).reverse = l := by
  rw [dropWhile_eq_self_of_all _ l h,
    dropWhile_eq_self_of_all _ l.reverse (fun c hc => h c (List.mem_reverse.mp hc)),
    List.reverse_reverse]

lemma pyInt_natRepr (n : Nat) : pyInt (natRepr n) = some (n : Int) := by
  have hmem := natRepr_mem n
  have hdig : ∀ c ∈ natRepr n, (digitVal c).isSome := by
    intro c hc
    obtain ⟨d, hd, rfl⟩ := hmem c hc
    rw [digitVal_digitChar d hd]
    rfl
  have hws : ∀ c ∈ natRepr n, c.isWhitespace = false := by
    intro c hc
    obtain ⟨d, hd, rfl⟩ := hmem c hc
    exact (digitChar_not_special d hd).1
  obtain ⟨c, cs, hcons⟩ : ∃ c cs, natRepr n = c :: cs := by
    cases hnr : natRepr n with
    | nil => exact absurd hnr (natRepr_ne_nil n)
    | cons c cs => exact ⟨c, cs, rfl⟩
  obtain ⟨d, hd, hcd⟩ := hmem c (by rw [hcons]; simp)
  have hval : parseDigits (natRepr n) = some n := by
    rw [parseDigits_all_digits (natRepr n) (natRepr_ne_nil n) hdig, natRepr_foldl n 0]
    simp
  rw [pyInt]
  simp only [stripWS_eq_self _ hws]
  rw [hcons]
  dsimp only
  rw [if_neg (by rw [hcd]; exact (digitChar_not_special d hd).2.1),
    if_neg (by rw [hcd]; exact (digitChar_not_special d hd).2.2.1)]
  rw [← hcons, hval]
  rfl

/-- Claim C7: for every nonempty user id (underscores allowed), every
10-character `YYYY-MM-DD` date and every natural `seq`, parsing the
session id built by `_build_session_id` recovers exactly the original
triple. -/
theorem parse_build_roundtrip (u d : List Char) (n : Nat)
    (hu : u ≠ []) (hd : isDateForm d = true) :
    parse_session_id (build_session_id u d (n : Int)) = .ok (u, d, (n : Int)) := by
  have hdlen : d.length = 10 := by
    unfold isDateForm at hd
    rw [Bool.and_eq_true] at hd
    exact of_decide_eq_true hd.1
  have h0 : ¬ ((n : Int) < 0) := by omega
  have hbuild : build_session_id u d (n : Int) = u ++ '_' :: (d ++ '_' :: natRepr n) := by
    simp [build_session_id, intRepr, h0]
  have hrep : '_' ∉ natRepr n := by
    intro hmem
    obtain ⟨dd, hdd, he⟩ := natRepr_mem n '_' hmem
    exact (digitChar_not_special dd hdd).2.2.2 he.symm
  have h1 : rfindUnderscore (natRepr n) = none := rfindUnderscore_eq_none _ hrep
  have h2 : rfindUnderscore ('_' :: natRepr n) = some 0 := by
    rw [rfindUnderscore, h1]
    simp
  have h3 : rfindUnderscore (d ++ '_' :: natRepr n) = some d.length := by
    rw [rfindUnderscore_append, h2]
    simp
  have h4 : rfindUnderscore ('_' :: (d ++ '_' :: natRepr n)) = some (d.length + 1) := by
    rw [rfindUnderscore, h3]
  have hrf : rfindUnderscore (u ++ '_' :: (d ++ '_' :: natRepr n)) =
      some (u.length + (d.length + 1)) := by
    rw [rfindUnderscore_append, h4]
  have hdrop : (u ++ '_' :: (d ++ '_' :: natRepr n)).drop (u.length + (d.length + 1) + 1) =
      natRepr n := by
    have hassoc : u ++ '_' :: (d ++ '_' :: natRepr n) =
        (u ++ '_' :: (d ++ ['_'])) ++ natRepr n := by simp
    have hlen2 : (u ++ '_' :: (d ++ ['_'])).length = u.length + (d.length + 1) + 1 := by
      simp
      omega
    rw [hassoc, ← hlen2, List.drop_left]
  have htake : (u ++ '_' :: (d ++ '_' :: natRepr n)).take (u.length + (d.length + 1)) =
      u ++ '_' :: d := by
    have hassoc : u ++ '_' :: (d ++ '_' :: natRepr n) =
        (u ++ '_' :: d) ++ ('_' :: natRepr n) := by simp
    have hlen2 : (u ++ '_' :: d).length = u.length + (d.length + 1) := by simp
    rw [hassoc, ← hlen2, List.take_left]
  have hrestlen : (u ++ '_' :: d).length = u.length + 11 := by
    simp [hdlen]
  have hlt11 : ¬ ((u ++ '_' :: d).length < 11) := by omega
  have hidx11 : (u ++ '_' :: d).length - 11 = u.length := by omega
  have hget : (u ++ '_' :: d).getD ((u ++ '_' :: d).length - 11) ' ' = '_' := by
    rw [hidx11, List.getD_eq_getElem?_getD, List.getElem?_append_right (le_refl u.length)]
    simp
  have htake_user : (u ++ '_' :: d).take ((u ++ '_' :: d).length - 11) = u := by
    rw [hidx11, List.take_left]
  have hdrop_date : (u ++ '_' :: d).drop ((u ++ '_' :: d).length - 10) = d := by
    have hidx10 : (u ++ '_' :: d).length - 10 = u.length + 1 := by omega
    have hassoc : u ++ '_' :: d = (u ++ ['_']) ++ d := by simp
    have hlen1 : (u ++ ['_']).length = u.length + 1 := by simp
    rw [hidx10, hassoc, ← hlen1, List.drop_left]
  rw [hbuild]
  unfold parse_session_id
  rw [hrf]
  dsimp only
  rw [hdrop, htake, pyInt_natRepr n]
  dsimp only
  rw [if_neg hlt11]
  rw [if_neg (not_ne_iff.mpr hget)]
  rw [htake_user, hdrop_date, if_neg hu]

/-- Witness for `parse_build_roundtrip`: a user id containing an
underscore round-trips through build and parse. -/
theorem parse_build_roundtrip_witness :
    parse_session_id (build_session_id "a_b".toList "2026-01-02".toList (3 : Int)) =
      .ok ("a_b".toList, "2026-01-02".toList, (3 : Int)) := by
  exact parse_build_roundtrip "a_b".toList "2026-01-02".toList 3 (by decide) (by decide)

/-- Counterexample to claim C8 as stated: `parse_session_id` never
inspects the characters of the 10-character date field, so the input
`u_0123456789_5` — whose date field has no hyphens at the required
positions — is accepted and decomposed rather than rejected. -/
theorem parse_session_id_accepts_hyphenless_date :
    parse_session_id "u_0123456789_5".toList =
      .ok ("u".toList, "0123456789".toList, (5 : Int)) := by
  rfl

/-- Whether a parse outcome is the Python exception path. -/
def isErr : Except String (List Char × List Char × Int) → Bool
  | .error _ => true
  | .ok _ => false

/-- Claim C8, amended: `parse_session_id` raises for every string with
no underscore; for every string whose tail after the last underscore is
not a Python integer; for every string whose remainder before that
underscore is shorter than 11 characters or lacks an underscore at the
11th-from-last position; and for every string whose user-id prefix is
empty.  (The content of the 10-character date field — in particular its
hyphens — is not validated.) -/
theorem parse_session_id_rejects (s : List Char) :
    (rfindUnderscore s = none → isErr (parse_session_id s) = true)
    ∧ (∀ i, rfindUnderscore s = some i → pyInt (s.drop (i + 1)) = none →
        isErr (parse_session_id s) = true)
    ∧ (∀ i, rfindUnderscore s = some i →
        ((s.take i).length < 11 ∨ (s.take i).getD ((s.take i).length - 11) ' ' ≠ '_') →
        isErr (parse_session_id s) = true)
    ∧ (∀ i, rfindUnderscore s = some i → (s.take i).take ((s.take i).length - 11) = [] →
        isErr (parse_session_id s) = true) := by
  refine ⟨?_, ?_, ?_, ?_⟩
  · intro h
    unfold parse_session_id
    rw [h]
    rfl
  · intro i hi hp
    unfold parse_session_id
    rw [hi]
    dsimp only
    rw [hp]
    rfl
  · intro i hi hcond
    unfold parse_session_id
    rw [hi]
    dsimp only
    cases hp : pyInt (s.drop (i + 1)) with
    | none => rfl
    | some v =>
      dsimp only
      rcases hcond with hlen | hget
      · rw [if_pos hlen]
        rfl
      · by_cases hlen2 : (s.take i).length < 11
        · rw [if_pos hlen2]
          rfl
        · rw [if_neg hlen2, if_pos hget]
          rfl
  · intro i hi hempty
    unfold parse_session_id
    rw [hi]
    dsimp only
    cases hp : pyInt (s.drop (i + 1)) with
    | none => rfl
    | some v =>
      dsimp only
      by_cases hlen2 : (s.take i).length < 11
      · rw [if_pos hlen2]
        rfl
      · rw [if_neg hlen2]
        by_cases hg : (s.take i).getD ((s.take i).length - 11) ' ' ≠ '_'
        · rw [if_pos hg]
          rfl
        · rw [if_neg hg, if_pos hempty]
          rfl

/-- Witness for `parse_session_id_rejects`: a string with no underscore
at all, and one whose tail after the last underscore is not an integer,
are both rejected. -/
theorem parse_session_id_rejects_witness :
    isErr (parse_session_id "nounderscore".toList) = true ∧
    isErr (parse_session_id "u_2026-01-02_x".toList) = true := by
  constructor
  · exact (parse_session_id_rejects "nounderscore".toList).1 (by rfl)
  · exact (parse_session_id_rejects "u_2026-01-02_x".toList).2.1 12 (by rfl) (by rfl)

/-- Witness for `build_context_spec`: limit 500, safety 9/10, response
buffer 100 (budget 350), a 100-token system prompt and three 100-token
history messages — the two newest fit. -/
theorem build_context_spec_witness :
    ∃ sel, build_context (fun _ => 100) 9 10 100 "P"
        [Msg.human "h1", Msg.human "h2", Msg.human "h3"] 500 = Msg.system "P" :: sel
      ∧ sel <:+ [Msg.human "h1", Msg.human "h2", Msg.human "h3"]
      ∧ (((sel.map (fun _ => (100 : Nat))).sum : Nat) : Int) ≤
          context_budget 9 10 100 500 - ((100 : Nat) : Int)
      ∧ ∀ pre m, [Msg.human "h1", Msg.human "h2", Msg.human "h3"] = pre ++ m :: sel →
          context_budget 9 10 100 500 - ((100 : Nat) : Int)
            - (((sel.map (fun _ => (100 : Nat))).sum : Nat) : Int) - ((100 : Nat) : Int)
            < 0 := by
  exact (build_context_spec (fun _ => 100) 9 10 100 "P"
    [Msg.human "h1", Msg.human "h2", Msg.human "h3"] 500).2 (by decide)
